import Mathlib

/-!
Verification of the epoch pagination / checkpointing logic of the
AIMS Mastodon scraper (`mastodon_scraper.py`).

The Python code is shallowly embedded:

* a pandas `DataFrame` is a `Frame`: a list of rows, each row a list of
  cells, a cell being `Option Int` (`none` models a missing / NA value);
  for the combine step the id column is modelled as column 0;
* the checkpoint directory is a `Dir`: an association list from file
  basename (including the `.csv` extension) to the frame stored in that
  file; a fresh file is appended at the end, an existing file is
  overwritten in place;
* the remote collaborator `self.api.timeline_hashtag` is an oracle
  parameter `api : String → Int → Option Int → Option Int → Frame`
  taking the query, the (clamped) limit, `min_id` and `max_id`;
  the functions also return the exact argument tuples handed to the
  collaborator, so theorems can speak about what the collaborator
  receives;
* Python integers are `Int` / `Nat`; the float arithmetic of
  `__get_start_from_epoch` (`1e17`, `1e15` are IEEE-754 doubles) is
  modelled exactly by `roundDouble`, round-to-nearest-even at 53-bit
  precision on the (always integral) intermediate values.
-/

namespace MastodonScraper

/-- A cell of a data frame: `none` models a pandas NA/NaN value. -/
abbrev Cell := Option Int

/-- A row of a data frame. -/
abbrev Row := List Cell

/-- A pandas `DataFrame`: a list of rows. -/
abbrev Frame := List Row

/-- The checkpoint directory: file basename (with extension) ↦ stored frame.
New files are appended, overwrites replace in place. -/
abbrev Dir := List (String × Frame)

/-- The argument tuple passed to the collaborator
`self.api.timeline_hashtag(query, limit=…, min_id=…, max_id=…)`. -/
structure Call where
  query : String
  limit : Int
  min_id : Option Int
  max_id : Option Int
deriving Repr, DecidableEq

/-- The collaborator: the remote search API, an oracle from the call
arguments to the returned frame. -/
abbrev Api := String → Int → Option Int → Option Int → Frame

/-- `not df.empty and not df.isna().all().all()` — the validity filter
applied to query results and to loaded checkpoint frames. -/
def validFrame (df : Frame) : Bool :=
  !df.isEmpty && !df.all (fun r => r.all (fun c => c.isNone))

/-- `max(0, min(num_posts_per_query, 40))` — the clamp applied in both
`search_one_query` and `search_list_of_queries`. -/
def clampPosts (n : Int) : Int :=
  max 0 (min n 40)

/-- `search_one_query` (epoch-mode path): clamps the limit, widens the
inclusive caller bounds by 1 each (exclusive collaborator semantics),
calls the collaborator and builds the frame.  Returns the call made
together with the resulting frame. -/
def searchOneQuery (api : Api) (search_query : String) (num_posts_per_query : Int)
    (start_id end_id : Option Int) : Call × Frame :=
  let n := clampPosts num_posts_per_query
  let s := start_id.map (fun i => i - 1)
  let e := end_id.map (fun i => i + 1)
  (⟨search_query, n, s, e⟩, api search_query n s e)

/-- `search_list_of_queries` (epoch-mode path): clamps the limit once more,
runs `search_one_query` for every query in order, keeps the non-empty
non-all-NA frames, and — only when at least one survives — concatenates
them into the frame that will be saved as this epoch's checkpoint.
Returns the list of collaborator calls and the frame to be written
(`none` when nothing is written). -/
def searchListOfQueries (api : Api) (query_list : List String)
    (num_posts_per_query : Int) (start_id end_id : Option Int) :
    List Call × Option Frame :=
  let n := clampPosts num_posts_per_query
  let results := query_list.map (fun q => searchOneQuery api q n start_id end_id)
  let calls := results.map Prod.fst
  let valid_dataframes := (results.map Prod.snd).filter validFrame
  (calls, if valid_dataframes.isEmpty then none else some valid_dataframes.flatten)

/-- Python code-point lexicographic `≤` on character lists
(the order used by `list.sort()` on strings). -/
def charsLe : List Char → List Char → Bool
  | [], _ => true
  | _ :: _, [] => false
  | a :: as, b :: bs =>
    if a.val < b.val then true
    else if b.val < a.val then false
    else charsLe as bs

/-- Python code-point lexicographic `≤` on strings. -/
def pyStrLe (a b : String) : Bool :=
  charsLe a.data b.data

/-- Stable insertion of an element into a sorted list. -/
def insertLe (le : α → α → Bool) (x : α) : List α → List α
  | [] => [x]
  | y :: ys => if le x y then x :: y :: ys else y :: insertLe le x ys

/-- Stable insertion sort, modelling Python's `list.sort()`
(ascending, stable). -/
def pySort (le : α → α → Bool) : List α → List α
  | [] => []
  | x :: xs => insertLe le x (pySort le xs)

/-- `__extract_csv_name`: regex `([^/\\]+)\.csv$` applied to a file
basename — the stem before a final `.csv`, when nonempty. -/
def extractCsvName (filename : String) : Option String :=
  let d := filename.data
  if 4 < d.length ∧ d.drop (d.length - 4) = '.' :: 'c' :: 's' :: 'v' :: [] then
    some (String.mk (d.take (d.length - 4)))
  else
    none

/-- Python `str.isdigit()` for ASCII: nonempty and all decimal digits. -/
def pyIsDigit (s : String) : Bool :=
  !s.data.isEmpty && s.data.all Char.isDigit

/-- Python `int(s)` on a string of decimal digits. -/
def strToNat (s : String) : Nat :=
  s.data.foldl (fun a c => a * 10 + (c.toNat - 48)) 0

/-- Whether a basename matches the glob pattern `*.csv`: ends in `.csv`
and is not hidden (glob skips names whose first character is a dot). -/
def csvGlobMatch (name : String) : Bool :=
  let d := name.data
  (decide (4 ≤ d.length ∧ d.drop (d.length - 4) = '.' :: 'c' :: 's' :: 'v' :: []))
    && (match d with
        | [] => false
        | c :: _ => c != '.')

/-- `glob.glob(os.path.join(dir, "*.csv"))`: the directory entries whose
name matches `*.csv`.  Order is the directory order of the model. -/
def globCsv (dir : Dir) : List (String × Frame) :=
  dir.filter (fun f => csvGlobMatch f.1)

/-- The numeric stems of the checkpoint files, still as strings, sorted
by Python's string sort: `csv_names` after `sort()` in `__run_epoch`. -/
def sortedCsvNames (dir : Dir) : List String :=
  let csv_names := (globCsv dir).filterMap (fun f => extractCsvName f.1)
  pySort pyStrLe (csv_names.filter pyIsDigit)

/-- The resume step of `__run_epoch`: `int(csv_names[-1]) + 1` on the
sorted digit-stems, or `0` when there are none. -/
def resolveNextEpoch (dir : Dir) : Nat :=
  match (sortedCsvNames dir).getLast? with
  | some last => strToNat last + 1
  | none => 0

/-- Modelled from the spec: `resolveNextEpoch` as the spec words it —
`max(stems) + 1` over the numeric stems, `0` when there are none.
Used only to contrast with the implementation above. -/
def resolveNextEpochSpec (dir : Dir) : Nat :=
  let stems := ((globCsv dir).filterMap (fun f => extractCsvName f.1)).filter pyIsDigit
  match (stems.map strToNat).max? with
  | some m => m + 1
  | none => 0

/-- Fuel-driven floor of log₂ (structural recursion, so that it reduces
in the kernel). -/
def log2floorAux : Nat → Nat → Nat
  | _, 0 => 0
  | n, fuel + 1 => if n ≤ 1 then 0 else log2floorAux (n / 2) fuel + 1

/-- Floor of log₂ of a positive integer (0 at 0). -/
def log2floor (x : Nat) : Nat :=
  log2floorAux x x

/-- Round `x` to the nearest multiple of `2 ^ u`, ties to the even
multiple. -/
def roundAt (x u : Nat) : Nat :=
  if x % 2 ^ u < 2 ^ (u - 1) then x / 2 ^ u * 2 ^ u
  else if 2 ^ (u - 1) < x % 2 ^ u then (x / 2 ^ u + 1) * 2 ^ u
  else if x / 2 ^ u % 2 = 0 then x / 2 ^ u * 2 ^ u
  else (x / 2 ^ u + 1) * 2 ^ u

/-- Round a nonnegative integer to the nearest IEEE-754 double
(round-to-nearest, ties-to-even, 53-bit mantissa).  All values of
`__get_start_from_epoch` are integral, so this models its float
arithmetic exactly. -/
def roundDouble (x : Nat) : Nat :=
  if x < 2 ^ 53 then x else roundAt x (log2floor x - 52)

/-- `__get_start_from_epoch`: epoch 0 ↦ `0`; otherwise
`1e17 + (epoch - 1) * 1e15` computed in IEEE-754 doubles
(`1e17` and `1e15` are exactly representable; the int→float conversion
of `epoch - 1`, the product and the sum each round to nearest). -/
def getStartFromEpoch (epoch : Nat) : Nat :=
  if epoch = 0 then 0
  else roundDouble (roundDouble (roundDouble (epoch - 1) * 10 ^ 15) + 10 ^ 17)

/-- `__save_csv`: writes `filename` into the directory, overwriting an
existing file of that name in place, otherwise creating a new entry. -/
def saveCsv (dir : Dir) (filename : String) (df : Frame) : Dir :=
  if dir.any (fun f => f.1 == filename) then
    dir.map (fun f => if f.1 == filename then (filename, df) else f)
  else
    dir ++ [(filename, df)]

/-- `__run_epoch`: resolves the next epoch from the checkpoint directory,
computes its start cursor, runs every query with that cursor as the
(inclusive) lower bound and no upper bound, and writes the checkpoint
file `<epoch>.csv` when at least one query produced a valid frame.
Returns the epoch number, the collaborator calls made, and the updated
directory. -/
def runEpoch (api : Api) (query_list : List String) (num_posts_per_query : Int)
    (dir : Dir) : Nat × List Call × Dir :=
  let epoch_num := resolveNextEpoch dir
  let start_id : Int := (getStartFromEpoch epoch_num : Int)
  let r := searchListOfQueries api query_list num_posts_per_query (some start_id) none
  match r.2 with
  | none => (epoch_num, r.1, dir)
  | some df => (epoch_num, r.1, saveCsv dir (toString epoch_num ++ ".csv") df)

/-- `run_epochs`: runs `num_epochs` consecutive epochs, each re-scanning
the checkpoint directory. -/
def runEpochs (api : Api) (query_list : List String) (num_epochs : Nat)
    (num_posts_per_query : Int) (dir : Dir) : Dir :=
  match num_epochs with
  | 0 => dir
  | n + 1 =>
    runEpochs api query_list n num_posts_per_query
      (runEpoch api query_list num_posts_per_query dir).2.2

/-- The id of a row: the id column is modelled as column 0
(`id_column="id"` in `combine_epochs`). -/
def rowId (r : Row) : Cell :=
  r.headD none

/-- Worker of `dedupById`: drop every row whose id was already seen. -/
def dedupGo (seen : List Cell) : List Row → List Row
  | [] => []
  | r :: rs =>
    if seen.contains (rowId r) then dedupGo seen rs
    else r :: dedupGo (rowId r :: seen) rs

/-- `drop_duplicates(subset=id_column)`: keeps the first row of each
distinct id value, in table order (pandas treats NA keys as equal). -/
def dedupById (rows : List Row) : List Row :=
  dedupGo [] rows

/-- The comparison used by `sort_values(by=id_column)`: ascending by id,
NA last (pandas default `na_position="last"`). -/
def cellLe (a b : Cell) : Bool :=
  match a, b with
  | some x, some y => x ≤ y
  | some _, none => true
  | none, some _ => false
  | none, none => true

/-- `sort_values(by=id_column)`: sort the rows ascending by id. -/
def sortById (rows : List Row) : List Row :=
  pySort (fun a b => cellLe (rowId a) (rowId b)) rows

/-- The two failure kinds of `combine_epochs`:
`FileNotFoundError` when the glob finds no CSV file, and `ValueError`
when files exist but every loaded frame is empty or all-NA. -/
inductive CombineError where
  | noCsvFiles
  | noUsableData
deriving Repr, DecidableEq

/-- The frames loaded by `combine_epochs` after its empty/all-NA filter. -/
def loadedFrames (dir : Dir) : List Frame :=
  ((globCsv dir).map Prod.snd).filter validFrame

/-- The combined table of `combine_epochs`: concatenate the loaded frames,
drop duplicates by id (first occurrence kept), sort ascending by id. -/
def combinedFrame (dir : Dir) : Frame :=
  sortById (dedupById (loadedFrames dir).flatten)

/-- `combine_epochs`: globs `*.csv` in the directory, loads each frame,
filters out empty or all-NA frames, concatenates, drops duplicate ids
(first kept), sorts ascending by id, writes `combined_epochs.csv` back
into the same directory, and returns the combined frame with the
updated directory. -/
def combineEpochs (dir : Dir) : Except CombineError (Frame × Dir) :=
  if (globCsv dir).isEmpty then
    .error .noCsvFiles
  else if (loadedFrames dir).isEmpty then
    .error .noUsableData
  else
    .ok (combinedFrame dir, saveCsv dir "combined_epochs.csv" (combinedFrame dir))

/-- A deterministic collaborator that always returns one non-empty row. -/
def apiOneRow : Api := fun _ _ _ _ => [[some 1]]

/-- A checkpoint directory already holding epochs 0 through 9. -/
def dirTen : Dir :=
  [("0.csv", [[some 1]]), ("1.csv", [[some 1]]), ("2.csv", [[some 1]]),
   ("3.csv", [[some 1]]), ("4.csv", [[some 1]]), ("5.csv", [[some 1]]),
   ("6.csv", [[some 1]]), ("7.csv", [[some 1]]), ("8.csv", [[some 1]]),
   ("9.csv", [[some 1]])]

/-- Checkpoint file A of the spec's combine example: ids 1, 2, 3
(second column marks the file of origin). -/
def frameA : Frame := [[some 1, some 10], [some 2, some 10], [some 3, some 10]]

/-- Checkpoint file B of the spec's combine example: ids 3, 4, 5. -/
def frameB : Frame := [[some 3, some 20], [some 4, some 20], [some 5, some 20]]

/-- The expected combined table of the A/B example: ids 1–5 ascending,
the id-3 row coming from A, the first-processed file. -/
def frameAB : Frame :=
  [[some 1, some 10], [some 2, some 10], [some 3, some 10],
   [some 4, some 20], [some 5, some 20]]

/-! ### Helper lemmas -/

theorem clampPosts_idem (n : Int) : clampPosts (clampPosts n) = clampPosts n := by
  unfold clampPosts
  omega

theorem clampPosts_nonneg (n : Int) : 0 ≤ clampPosts n := by
  unfold clampPosts
  omega

theorem clampPosts_le (n : Int) : clampPosts n ≤ 40 := by
  unfold clampPosts
  omega

theorem perm_insertLe (le : α → α → Bool) (x : α) (l : List α) :
    (insertLe le x l).Perm (x :: l) := by
  induction l with
  | nil => exact List.Perm.refl _
  | cons y ys ih =>
    unfold insertLe
    by_cases h : le x y
    · simp [h]
    · simp only [h, if_false]
      exact (ih.cons y).trans (List.Perm.swap x y ys)

theorem perm_pySort (le : α → α → Bool) (l : List α) :
    (pySort le l).Perm l := by
  induction l with
  | nil => exact List.Perm.refl _
  | cons x xs ih =>
    unfold pySort
    exact (perm_insertLe le x (pySort le xs)).trans (ih.cons x)

theorem mem_pySort (le : α → α → Bool) (l : List α) (a : α) :
    a ∈ pySort le l ↔ a ∈ l :=
  (perm_pySort le l).mem_iff

theorem pairwise_insertLe (le : α → α → Bool)
    (total : ∀ a b, le a b = true ∨ le b a = true)
    (trans : ∀ a b c, le a b = true → le b c = true → le a c = true)
    (x : α) (l : List α) (hl : l.Pairwise (fun a b => le a b = true)) :
    (insertLe le x l).Pairwise (fun a b => le a b = true) := by
  induction l with
  | nil => simp [insertLe]
  | cons y ys ih =>
    unfold insertLe
    rcases List.pairwise_cons.mp hl with ⟨hy, hys⟩
    by_cases h : le x y = true
    · rw [if_pos h]
      refine List.Pairwise.cons ?_ hl
      intro b hb
      rcases List.mem_cons.mp hb with hb | hb
      · simpa [hb] using h
      · exact trans x y b h (hy b hb)
    · rw [if_neg h]
      refine List.Pairwise.cons ?_ (ih hys)
      intro b hb
      have hb' := ((perm_insertLe le x ys).mem_iff).mp hb
      rcases List.mem_cons.mp hb' with hb' | hb'
      · rcases total x y with hxy | hyx
        · exact absurd hxy h
        · rw [hb']
          exact hyx
      · exact hy b hb'

theorem pairwise_pySort (le : α → α → Bool)
    (total : ∀ a b, le a b = true ∨ le b a = true)
    (trans : ∀ a b c, le a b = true → le b c = true → le a c = true)
    (l : List α) :
    (pySort le l).Pairwise (fun a b => le a b = true) := by
  induction l with
  | nil => simp [pySort]
  | cons x xs ih =>
    unfold pySort
    exact pairwise_insertLe le total trans x (pySort le xs) ih

theorem cellLe_total (a b : Cell) : cellLe a b = true ∨ cellLe b a = true := by
  rcases a with _ | x
  · rcases b with _ | y
    · simp [cellLe]
    · simp [cellLe]
  · rcases b with _ | y
    · simp [cellLe]
    · simp only [cellLe, decide_eq_true_eq]
      omega

theorem cellLe_trans (a b c : Cell) (h1 : cellLe a b = true) (h2 : cellLe b c = true) :
    cellLe a c = true := by
  rcases a with _ | x
  all_goals rcases b with _ | y
  all_goals rcases c with _ | z
  all_goals simp [cellLe] at *
  all_goals omega

theorem dedupById_go_sublist (seen : List Cell) (rows : List Row) :
    (dedupGo seen rows).Sublist rows := by
  induction rows generalizing seen with
  | nil => simp [dedupGo]
  | cons r rs ih =>
    unfold dedupGo
    by_cases h : seen.contains (rowId r)
    · rw [if_pos h]
      exact (ih seen).trans (List.sublist_cons_self r rs)
    · rw [if_neg h]
      exact (ih (rowId r :: seen)).cons₂ r

theorem mem_of_mem_dedupById_go (seen : List Cell) (rows : List Row) (r : Row)
    (h : r ∈ dedupGo seen rows) : r ∈ rows :=
  (dedupById_go_sublist seen rows).mem h

/-- Every row surviving `dedupGo seen rows` is the first row of `rows`
carrying its id, and its id is not in `seen`. -/
theorem dedupById_go_first (seen : List Cell) (rows : List Row) (r : Row)
    (h : r ∈ dedupGo seen rows) :
    rowId r ∉ seen ∧ (rows.filter (fun r2 => rowId r2 == rowId r)).head? = some r := by
  induction rows generalizing seen with
  | nil => simp [dedupGo] at h
  | cons x xs ih =>
    unfold dedupGo at h
    by_cases hx : seen.contains (rowId x)
    · rw [if_pos hx] at h
      rcases ih seen h with ⟨hns, hfirst⟩
      refine ⟨hns, ?_⟩
      have hne : (rowId x == rowId r) = false := by
        rcases hbe : rowId x == rowId r with _ | _
        · rfl
        · exact absurd ((beq_iff_eq.mp hbe) ▸ (List.mem_of_elem_eq_true hx)) hns
      simp [List.filter_cons, hne, hfirst]
    · rw [if_neg hx] at h
      rcases List.mem_cons.mp h with hr | hr
      · subst hr
        refine ⟨fun hc => hx (List.elem_eq_true_of_mem hc), ?_⟩
        simp [List.filter_cons]
      · rcases ih (rowId x :: seen) hr with ⟨hns, hfirst⟩
        have hnx : rowId r ≠ rowId x := fun hc => hns (by simp [hc])
        have hns' : rowId r ∉ seen := fun hc => hns (by simp [hc])
        refine ⟨hns', ?_⟩
        have hne : (rowId x == rowId r) = false := by
          rcases hbe : rowId x == rowId r with _ | _
          · rfl
          · exact absurd (beq_iff_eq.mp hbe).symm hnx
        simp [List.filter_cons, hne, hfirst]

/-- The ids surviving `dedupGo` are distinct and disjoint from `seen`. -/
theorem dedupById_go_nodup (seen : List Cell) (rows : List Row) :
    ((dedupGo seen rows).map rowId).Nodup ∧
      ∀ c ∈ (dedupGo seen rows).map rowId, c ∉ seen := by
  induction rows generalizing seen with
  | nil => simp [dedupGo]
  | cons x xs ih =>
    unfold dedupGo
    by_cases hx : seen.contains (rowId x)
    · rw [if_pos hx]
      exact ih seen
    · rw [if_neg hx]
      rcases ih (rowId x :: seen) with ⟨hnd, hdisj⟩
      constructor
      · simp only [List.map_cons, List.nodup_cons]
        refine ⟨fun hc => ?_, hnd⟩
        exact (hdisj _ hc) (List.mem_cons_self _ _)
      · intro c hc
        rcases List.mem_cons.mp hc with hc | hc
        · subst hc
          exact fun hs => hx (List.elem_eq_true_of_mem hs)
        · intro hs
          exact (hdisj c hc) (List.mem_cons_of_mem _ hs)

/-- Every id occurring in `rows` still occurs after `dedupGo`,
unless it was already in `seen`. -/
theorem dedupById_go_covers (seen : List Cell) (rows : List Row) (r : Row)
    (hr : r ∈ rows) (hs : rowId r ∉ seen) :
    rowId r ∈ (dedupGo seen rows).map rowId := by
  induction rows generalizing seen with
  | nil => simp at hr
  | cons x xs ih =>
    unfold dedupGo
    by_cases hx : seen.contains (rowId x)
    · rw [if_pos hx]
      rcases List.mem_cons.mp hr with hr | hr
      · exact absurd (List.mem_of_elem_eq_true hx) ((congrArg rowId hr) ▸ hs)
      · exact ih seen hr hs
    · rw [if_neg hx]
      by_cases heq : rowId r = rowId x
      · simp [heq]
      · rcases List.mem_cons.mp hr with hr | hr
        · exact absurd (congrArg rowId hr) heq
        · simp only [List.map_cons, List.mem_cons]
          exact Or.inr (ih (rowId x :: seen) hr
            (fun hc => (List.mem_cons.mp hc).elim heq hs))

theorem log2floorAux_spec (fuel n : Nat) (h1 : 1 ≤ n) (h2 : n ≤ fuel) :
    2 ^ log2floorAux n fuel ≤ n ∧ n < 2 ^ (log2floorAux n fuel + 1) := by
  induction fuel generalizing n with
  | zero => omega
  | succ fuel ih =>
    unfold log2floorAux
    by_cases hn : n ≤ 1
    · have : n = 1 := by omega
      simp [hn, this]
    · rw [if_neg hn]
      have hh1 : 1 ≤ n / 2 := by omega
      have hh2 : n / 2 ≤ fuel := by omega
      rcases ih (n / 2) hh1 hh2 with ⟨hlo, hhi⟩
      constructor
      · calc 2 ^ (log2floorAux (n / 2) fuel + 1)
            = 2 * 2 ^ log2floorAux (n / 2) fuel := by ring
          _ ≤ 2 * (n / 2) := by omega
          _ ≤ n := by omega
      · calc n < 2 * (n / 2) + 2 := by omega
          _ ≤ 2 * 2 ^ (log2floorAux (n / 2) fuel + 1) := by omega
          _ = 2 ^ (log2floorAux (n / 2) fuel + 1 + 1) := by ring

theorem log2floor_spec (x : Nat) (h : 1 ≤ x) :
    2 ^ log2floor x ≤ x ∧ x < 2 ^ (log2floor x + 1) :=
  log2floorAux_spec x x h le_rfl

theorem log2floor_le (x k : Nat) (h1 : 1 ≤ x) (h : x < 2 ^ (k + 1)) :
    log2floor x ≤ k := by
  rcases log2floor_spec x h1 with ⟨hlo, _⟩
  by_contra hc
  have : 2 ^ (k + 1) ≤ 2 ^ log2floor x := Nat.pow_le_pow_right (by omega) (by omega)
  omega

theorem le_log2floor (x k : Nat) (h : 2 ^ k ≤ x) :
    k ≤ log2floor x := by
  have h1 : 1 ≤ x := le_trans (Nat.one_le_two_pow) h
  rcases log2floor_spec x h1 with ⟨_, hhi⟩
  by_contra hc
  have : 2 ^ (log2floor x + 1) ≤ 2 ^ k := Nat.pow_le_pow_right (by omega) (by omega)
  omega

theorem roundDouble_small (x : Nat) (h : x < 2 ^ 53) : roundDouble x = x := by
  unfold roundDouble
  rw [if_pos h]

/-- A value `m * 2 ^ u` with a 53-bit `m` is exactly representable as a
double, so rounding it is the identity. -/
theorem roundDouble_exact (m u : Nat) (hm : m < 2 ^ 53) :
    roundDouble (m * 2 ^ u) = m * 2 ^ u := by
  by_cases hbig : m * 2 ^ u < 2 ^ 53
  · exact roundDouble_small _ hbig
  · have hpu : 0 < 2 ^ u := Nat.pos_pow_of_pos u (by omega)
    have hp53 : 0 < 2 ^ 53 := Nat.pos_pow_of_pos 53 (by omega)
    have hm0 : 1 ≤ m := by
      rcases Nat.eq_zero_or_pos m with h0 | h0
      · rw [h0] at hbig
        omega
      · exact h0
    have hx1 : 1 ≤ m * 2 ^ u :=
      calc 1 ≤ 1 * 2 ^ u := by omega
        _ ≤ m * 2 ^ u := Nat.mul_le_mul_right _ hm0
    have hup : m * 2 ^ u < 2 ^ (53 + u) := by
      rw [pow_add]
      exact Nat.mul_lt_mul_of_lt_of_le hm le_rfl hpu
    have hlog_le : log2floor (m * 2 ^ u) ≤ 52 + u := by
      apply log2floor_le _ _ hx1
      have h53 : 52 + u + 1 = 53 + u := by omega
      rw [h53]
      exact hup
    have hlog_ge : 53 ≤ log2floor (m * 2 ^ u) := le_log2floor _ 53 (by omega)
    have hdvd : 2 ^ (log2floor (m * 2 ^ u) - 52) ∣ m * 2 ^ u :=
      Dvd.dvd.mul_left (pow_dvd_pow 2 (by omega)) m
    have hmod : m * 2 ^ u % 2 ^ (log2floor (m * 2 ^ u) - 52) = 0 :=
      Nat.dvd_iff_mod_eq_zero.mp hdvd
    have hupos : 0 < 2 ^ (log2floor (m * 2 ^ u) - 52 - 1) :=
      Nat.pos_pow_of_pos _ (by omega)
    unfold roundDouble roundAt
    rw [if_neg hbig, hmod, if_pos hupos]
    exact Nat.div_mul_cancel hdvd

/-- In the exactly-representable range the float formula of
`__get_start_from_epoch` agrees with the exact integer formula. -/
theorem getStartFromEpoch_exact_below (n : Nat) (h1 : 1 ≤ n) (h2 : n ≤ 295049) :
    getStartFromEpoch n = 10 ^ 17 + (n - 1) * 10 ^ 15 := by
  have h53 : (2 : Nat) ^ 53 = 9007199254740992 := by norm_num
  by_cases hlast : n = 295049
  · subst hlast
    decide
  · have hk : n - 1 ≤ 295047 := by omega
    have e1 : roundDouble (n - 1) = n - 1 := by
      apply roundDouble_small
      omega
    have a1 : (10 : Nat) ^ 15 = 5 ^ 15 * 2 ^ 15 := by norm_num
    have hm2 : (n - 1) * 5 ^ 15 < 2 ^ 53 := by
      have hb : (n - 1) * 5 ^ 15 ≤ 295047 * 5 ^ 15 :=
        Nat.mul_le_mul_right _ hk
      have hc : (295047 : Nat) * 5 ^ 15 < 2 ^ 53 := by norm_num
      omega
    have e2 : (n - 1) * 10 ^ 15 = (n - 1) * 5 ^ 15 * 2 ^ 15 := by
      rw [a1, Nat.mul_assoc]
    have e3 : roundDouble ((n - 1) * 10 ^ 15) = (n - 1) * 10 ^ 15 := by
      rw [e2]
      exact roundDouble_exact _ 15 hm2
    have key : (n - 1) * 10 ^ 15 + 10 ^ 17 = 5 ^ 15 * (100 + (n - 1)) * 2 ^ 15 := by
      have a2 : (10 : Nat) ^ 17 = 5 ^ 15 * 100 * 2 ^ 15 := by norm_num
      rw [a1, a2]
      ring
    have hm3 : 5 ^ 15 * (100 + (n - 1)) < 2 ^ 53 := by
      have hb : 5 ^ 15 * (100 + (n - 1)) ≤ 5 ^ 15 * 295147 :=
        Nat.mul_le_mul_left _ (by omega)
      have hc : (5 : Nat) ^ 15 * 295147 < 2 ^ 53 := by norm_num
      omega
    have e4 : roundDouble ((n - 1) * 10 ^ 15 + 10 ^ 17) = (n - 1) * 10 ^ 15 + 10 ^ 17 := by
      rw [key]
      exact roundDouble_exact _ 15 hm3
    unfold getStartFromEpoch
    rw [if_neg (by omega : ¬n = 0), e1, e3, e4]
    omega

/-- The calls made by `search_list_of_queries`: one per query, in order,
limit clamped (the clamp is applied twice, which is idempotent), bounds
adjusted by ±1. -/
theorem searchListOfQueries_calls (api : Api) (ql : List String) (n : Int)
    (s e : Option Int) :
    (searchListOfQueries api ql n s e).1 =
      ql.map (fun q =>
        ⟨q, clampPosts n, s.map (fun i => i - 1), e.map (fun i => i + 1)⟩) := by
  unfold searchListOfQueries searchOneQuery
  simp only [List.map_map]
  apply List.map_congr_left
  intro q _
  simp [Function.comp, clampPosts_idem]

/-- When every query's result frame is empty or all-NA, nothing is
written by `search_list_of_queries`. -/
theorem searchListOfQueries_none_of_invalid (api : Api) (ql : List String)
    (n : Int) (s e : Option Int)
    (h : ∀ q ∈ ql, validFrame (api q (clampPosts n)
      (s.map (fun i => i - 1)) (e.map (fun i => i + 1))) = false) :
    (searchListOfQueries api ql n s e).2 = none := by
  have hnil : ((ql.map (fun q => searchOneQuery api q (clampPosts n) s e)).map
      Prod.snd).filter validFrame = [] := by
    apply List.filter_eq_nil_iff.mpr
    intro df hdf
    simp only [List.map_map, List.mem_map, Function.comp] at hdf
    obtain ⟨q, hq, rfl⟩ := hdf
    simp only [searchOneQuery, clampPosts_idem]
    simp [h q hq]
  simp only [searchListOfQueries]
  rw [hnil]
  simp

theorem runEpoch_fst (api : Api) (ql : List String) (np : Int) (dir : Dir) :
    (runEpoch api ql np dir).1 = resolveNextEpoch dir := by
  simp only [runEpoch]
  cases h : (searchListOfQueries api ql np
      (some (getStartFromEpoch (resolveNextEpoch dir) : Int)) none).2 <;> simp [h]

theorem runEpoch_calls (api : Api) (ql : List String) (np : Int) (dir : Dir) :
    (runEpoch api ql np dir).2.1 =
      (searchListOfQueries api ql np
        (some (getStartFromEpoch (resolveNextEpoch dir) : Int)) none).1 := by
  simp only [runEpoch]
  cases h : (searchListOfQueries api ql np
      (some (getStartFromEpoch (resolveNextEpoch dir) : Int)) none).2 <;> simp [h]

theorem runEpoch_dir_of_none (api : Api) (ql : List String) (np : Int) (dir : Dir)
    (h : (searchListOfQueries api ql np
      (some (getStartFromEpoch (resolveNextEpoch dir) : Int)) none).2 = none) :
    (runEpoch api ql np dir).2.2 = dir := by
  simp only [runEpoch]
  rw [h]

/-- The file written by `__save_csv` is present in the directory
afterwards, with the written content. -/
theorem mem_saveCsv (dir : Dir) (fn : String) (df : Frame) :
    (fn, df) ∈ saveCsv dir fn df := by
  unfold saveCsv
  by_cases h : dir.any (fun f => f.1 == fn)
  · rw [if_pos h]
    obtain ⟨f, hf, hfn⟩ := List.any_eq_true.mp h
    exact List.mem_map.mpr ⟨f, hf, by simp [hfn]⟩
  · rw [if_neg h]
    exact List.mem_append_right _ (List.mem_singleton.mpr rfl)

theorem combineEpochs_ok (dir : Dir) (h : ¬(globCsv dir).isEmpty = true)
    (h2 : ¬(loadedFrames dir).isEmpty = true) :
    combineEpochs dir =
      .ok (combinedFrame dir, saveCsv dir "combined_epochs.csv" (combinedFrame dir)) := by
  unfold combineEpochs
  rw [if_neg h, if_neg h2]

/-- Inversion: a successful `combine_epochs` returns the combined frame
and the directory extended with `combined_epochs.csv`. -/
theorem combineEpochs_ok_inv (dir : Dir) (res : Frame) (dir' : Dir)
    (h : combineEpochs dir = .ok (res, dir')) :
    res = combinedFrame dir ∧
      dir' = saveCsv dir "combined_epochs.csv" (combinedFrame dir) := by
  unfold combineEpochs at h
  by_cases h1 : (globCsv dir).isEmpty
  · rw [if_pos h1] at h
    exact absurd h (by simp)
  · rw [if_neg h1] at h
    by_cases h2 : (loadedFrames dir).isEmpty
    · rw [if_pos h2] at h
      exact absurd h (by simp)
    · rw [if_neg h2] at h
      have := Except.ok.inj h
      exact ⟨(congrArg Prod.fst this).symm, (congrArg Prod.snd this).symm⟩

/-! ### Claim theorems -/

/-- Claim C1: the resume step is claimed to return max(numeric stems) + 1
for every directory.  The code sorts the digit stems as strings and takes
the last: on a directory holding `9.csv` and `10.csv` the
lexicographically largest stem is `"9"`, so the code resumes at epoch 10
while the claimed value is max(9, 10) + 1 = 11.  The spec's own examples
(`0,1,3,foo ↦ 4`, empty ↦ 0) do hold. -/
theorem resolveNextEpoch_string_sort_code_bug :
    resolveNextEpoch [("9.csv", [[some 1]]), ("10.csv", [[some 2]])] = 10 ∧
    resolveNextEpochSpec [("9.csv", [[some 1]]), ("10.csv", [[some 2]])] = 11 ∧
    resolveNextEpoch [("0.csv", [[some 1]]), ("1.csv", [[some 1]]),
      ("3.csv", [[some 1]]), ("foo.csv", [[some 1]])] = 4 ∧
    resolveNextEpoch [] = 0 := by
  exact ⟨by decide, by decide, by decide, by decide⟩

/-- Claim C2: running two consecutive epochs with always-nonempty query
results is claimed to produce two distinct checkpoint files with
consecutive numbers.  Starting from a directory holding `0.csv` … `9.csv`,
both iterations resolve to epoch 10 (the string sort ranks `"9"` above
`"10"`), so the second iteration overwrites `10.csv` and the run produces
a single new file instead of two. -/
theorem runEpochs_epoch_overwrite_code_bug :
    (runEpoch apiOneRow ["q"] 20 dirTen).1 = 10 ∧
    (runEpoch apiOneRow ["q"] 20 ((runEpoch apiOneRow ["q"] 20 dirTen).2.2)).1 = 10 ∧
    runEpochs apiOneRow ["q"] 2 20 dirTen = dirTen ++ [("10.csv", [[some 1]])] := by
  exact ⟨by decide, by decide, by decide⟩

/-- Claim C6 counterexample: at epoch 295050 the IEEE-754 double
computation of `__get_start_from_epoch` rounds, returning
295148999999999967232 instead of the exact 10^17 + 295049·10^15
= 295149000000000000000, so "every epoch n ≥ 1 maps to exactly
10^17 + (n−1)·10^15" fails. -/
theorem getStartFromEpoch_formula_counterexample :
    getStartFromEpoch 295050 ≠ 10 ^ 17 + (295050 - 1) * 10 ^ 15 ∧
    getStartFromEpoch 295050 = 295148999999999967232 := by
  exact ⟨by decide, by decide⟩

/-- Claim C6 (amended): `computeEpochStart` maps epoch 0 to 0 and every
epoch 1 ≤ n ≤ 295049 to exactly 10^17 + (n−1)·10^15 (so 1 ↦ 1e17 and
2 ↦ 1.01e17); for larger n the float arithmetic may round the result. -/
theorem getStartFromEpoch_formula_amended (n : Nat) (h1 : 1 ≤ n) (h2 : n ≤ 295049) :
    getStartFromEpoch 0 = 0 ∧
    getStartFromEpoch n = 10 ^ 17 + (n - 1) * 10 ^ 15 :=
  ⟨by decide, getStartFromEpoch_exact_below n h1 h2⟩

/-- Witness for C6 at n = 2. -/
theorem getStartFromEpoch_formula_amended_witness :
    1 ≤ 2 ∧ 2 ≤ 295049 ∧
      (getStartFromEpoch 0 = 0 ∧ getStartFromEpoch 2 = 10 ^ 17 + (2 - 1) * 10 ^ 15) :=
  ⟨by decide, by decide, getStartFromEpoch_formula_amended 2 (by decide) (by decide)⟩

/-- Claim C7: with caller-supplied inclusive bounds, the collaborator is
called with the lower bound decremented by 1 and the upper bound
incremented by 1; an absent bound is passed through unadjusted. -/
theorem searchOneQuery_adjusts_bounds (api : Api) (q : String) (n : Int) (a b : Int) :
    (searchOneQuery api q n (some a) (some b)).1
        = ⟨q, clampPosts n, some (a - 1), some (b + 1)⟩ ∧
    (searchOneQuery api q n (some a) none).1 = ⟨q, clampPosts n, some (a - 1), none⟩ ∧
    (searchOneQuery api q n none (some b)).1 = ⟨q, clampPosts n, none, some (b + 1)⟩ ∧
    (searchOneQuery api q n none none).1 = ⟨q, clampPosts n, none, none⟩ :=
  ⟨rfl, rfl, rfl, rfl⟩

/-- Claim C8: the per-query cap handed to the collaborator always equals
max(0, min(input, 40)), hence lies in [0, 40]; in particular 100 ↦ 40
and −5 ↦ 0.  Both call paths (`search_one_query` directly and via
`search_list_of_queries`) clamp. -/
theorem collaborator_limit_clamped (api : Api) (ql : List String) (q : String)
    (n : Int) (s e : Option Int) :
    (searchOneQuery api q n s e).1.limit = max 0 (min n 40) ∧
    (∀ c ∈ (searchListOfQueries api ql n s e).1, c.limit = max 0 (min n 40)) ∧
    0 ≤ (searchOneQuery api q n s e).1.limit ∧
    (searchOneQuery api q n s e).1.limit ≤ 40 ∧
    clampPosts 100 = 40 ∧ clampPosts (-5) = 0 := by
  refine ⟨rfl, ?_, clampPosts_nonneg n, clampPosts_le n, by decide, by decide⟩
  intro c hc
  rw [searchListOfQueries_calls] at hc
  obtain ⟨q', _, rfl⟩ := List.mem_map.mp hc
  rfl

/-- Witness for C8 at input 100 and −5. -/
theorem collaborator_limit_clamped_witness :
    clampPosts 100 = 40 ∧ clampPosts (-5) = 0 :=
  ⟨(collaborator_limit_clamped (fun _ _ _ _ => []) [] "q" 100 none none).2.2.2.2.1,
   (collaborator_limit_clamped (fun _ _ _ _ => []) [] "q" 100 none none).2.2.2.2.2⟩

/-- Claim C10: when the resume computation yields epoch 0, the start
cursor 0 is treated as a supplied bound, so every collaborator call of
that epoch receives min_id = −1 (0 decremented by the inclusivity
adjustment) rather than an omitted lower bound. -/
theorem epoch0_min_id_neg_one (api : Api) (ql : List String) (np : Int) (dir : Dir)
    (h : resolveNextEpoch dir = 0) :
    (runEpoch api ql np dir).2.1 =
      ql.map (fun q => ⟨q, clampPosts np, some (-1), none⟩) := by
  rw [runEpoch_calls, searchListOfQueries_calls, h]
  norm_num [getStartFromEpoch]

/-- Witness for C10 on the empty (fresh) checkpoint directory. -/
theorem epoch0_min_id_neg_one_witness :
    (runEpoch (fun _ _ _ _ => ([] : Frame)) ["q"] 20 ([] : Dir)).2.1 =
      ["q"].map (fun q => (⟨q, clampPosts 20, some (-1), none⟩ : Call)) :=
  epoch0_min_id_neg_one (fun _ _ _ _ => []) ["q"] 20 [] (by decide)

/-- Claim C3: in an epoch run where every query's result is empty or
entirely NA, no checkpoint file is written — the directory is unchanged —
and a subsequent resume recomputes the identical epoch number and start
cursor. -/
theorem runEpoch_all_empty_writes_nothing (api : Api) (ql : List String)
    (np : Int) (dir : Dir)
    (h : ∀ c ∈ (runEpoch api ql np dir).2.1,
      validFrame (api c.query c.limit c.min_id c.max_id) = false) :
    (runEpoch api ql np dir).2.2 = dir ∧
    (runEpoch api ql np ((runEpoch api ql np dir).2.2)).1 = (runEpoch api ql np dir).1 ∧
    getStartFromEpoch ((runEpoch api ql np ((runEpoch api ql np dir).2.2)).1)
      = getStartFromEpoch ((runEpoch api ql np dir).1) := by
  have hq : ∀ q ∈ ql, validFrame (api q (clampPosts np)
      ((some ((getStartFromEpoch (resolveNextEpoch dir) : Int))).map (fun i => i - 1))
      ((none : Option Int).map (fun i => i + 1))) = false := by
    intro q hmem
    exact h ⟨q, clampPosts np,
        (some ((getStartFromEpoch (resolveNextEpoch dir) : Int))).map (fun i => i - 1),
        (none : Option Int).map (fun i => i + 1)⟩
      (by
        rw [runEpoch_calls, searchListOfQueries_calls]
        exact List.mem_map.mpr ⟨q, hmem, rfl⟩)
  have hnone := searchListOfQueries_none_of_invalid api ql np
    (some ((getStartFromEpoch (resolveNextEpoch dir) : Int))) none hq
  have hdir := runEpoch_dir_of_none api ql np dir hnone
  exact ⟨hdir, by rw [hdir], by rw [hdir]⟩

/-- Witness for C3: an always-empty collaborator on a fresh directory. -/
theorem runEpoch_all_empty_writes_nothing_witness :
    (runEpoch (fun _ _ _ _ => ([] : Frame)) ["q"] 20 ([] : Dir)).2.2 = ([] : Dir) :=
  (runEpoch_all_empty_writes_nothing (fun _ _ _ _ => []) ["q"] 20 [] (by decide)).1

/-- A directory's loaded frames are all filtered out exactly when every
globbed CSV holds an empty or all-NA frame. -/
theorem loadedFrames_eq_nil_iff (dir : Dir) :
    loadedFrames dir = [] ↔ ∀ f ∈ globCsv dir, validFrame f.2 = false := by
  unfold loadedFrames
  rw [List.filter_eq_nil_iff]
  constructor
  · intro h f hf
    have := h f.2 (List.mem_map_of_mem Prod.snd hf)
    simpa using this
  · intro h df hdf
    obtain ⟨f, hf, rfl⟩ := List.mem_map.mp hdf
    simp [h f hf]

/-- Claim C5: `combine_epochs` raises the "no CSV files found"
`FileNotFoundError` exactly when no directory entry matches `*.csv`, and
the distinct "no usable data" `ValueError` exactly when CSV files are
present but every loaded frame is empty or entirely NA. -/
theorem combineEpochs_error_conditions (dir : Dir) :
    (combineEpochs dir = .error .noCsvFiles ↔ globCsv dir = []) ∧
    (combineEpochs dir = .error .noUsableData ↔
      globCsv dir ≠ [] ∧ ∀ f ∈ globCsv dir, validFrame f.2 = false) ∧
    CombineError.noCsvFiles ≠ CombineError.noUsableData := by
  unfold combineEpochs
  by_cases h1 : (globCsv dir).isEmpty
  · have hnil : globCsv dir = [] := List.isEmpty_iff.mp h1
    rw [if_pos h1]
    refine ⟨by simp [hnil], ?_, by decide⟩
    constructor
    · intro hcontra
      simp at hcontra
    · intro hcontra
      exact absurd hnil hcontra.1
  · have hne : globCsv dir ≠ [] := fun hnil => h1 (by simp [hnil])
    rw [if_neg h1]
    by_cases h2 : (loadedFrames dir).isEmpty
    · have hall := (loadedFrames_eq_nil_iff dir).mp (List.isEmpty_iff.mp h2)
      rw [if_pos h2]
      refine ⟨?_, ?_, by decide⟩
      · constructor
        · intro hcontra
          simp at hcontra
        · intro hnil
          exact absurd hnil hne
      · exact ⟨fun _ => ⟨hne, hall⟩, fun _ => rfl⟩
    · have hne2 : loadedFrames dir ≠ [] := fun hnil => h2 (by simp [hnil])
      rw [if_neg h2]
      refine ⟨?_, ?_, by decide⟩
      · constructor
        · intro hcontra
          simp at hcontra
        · intro hnil
          exact absurd hnil hne
      · constructor
        · intro hcontra
          simp at hcontra
        · intro hcontra
          exact absurd ((loadedFrames_eq_nil_iff dir).mpr hcontra.2) hne2

/-- Claim C4: on a directory with at least one non-empty, non-all-NA
frame, `combine_epochs` succeeds and its table has pairwise-distinct ids
covering every id of the concatenated input, is sorted ascending by id,
and keeps, for each id, the first row of the concatenation order; in
particular on files A (ids 1,2,3) and B (ids 3,4,5) it returns the five
rows [1..5] in ascending order with the id-3 row from A. -/
theorem combineEpochs_one_row_per_id_sorted (dir : Dir)
    (h : ∃ f ∈ globCsv dir, validFrame f.2 = true) :
    (∃ dir', combineEpochs dir = .ok (combinedFrame dir, dir')) ∧
    ((combinedFrame dir).map rowId).Nodup ∧
    (combinedFrame dir).Pairwise (fun a b => cellLe (rowId a) (rowId b) = true) ∧
    (∀ r ∈ (loadedFrames dir).flatten, rowId r ∈ (combinedFrame dir).map rowId) ∧
    (∀ r ∈ combinedFrame dir,
      ((loadedFrames dir).flatten.filter (fun r2 => rowId r2 == rowId r)).head?
        = some r) ∧
    combineEpochs [("a.csv", frameA), ("b.csv", frameB)] =
      .ok (frameAB,
        [("a.csv", frameA), ("b.csv", frameB), ("combined_epochs.csv", frameAB)]) := by
  obtain ⟨f, hf, hv⟩ := h
  have h1 : ¬(globCsv dir).isEmpty = true := fun he => by
    rw [List.isEmpty_iff.mp he] at hf
    exact absurd hf (List.not_mem_nil f)
  have hfl : f.2 ∈ loadedFrames dir :=
    List.mem_filter.mpr ⟨List.mem_map_of_mem Prod.snd hf, hv⟩
  have h2 : ¬(loadedFrames dir).isEmpty = true := fun he => by
    rw [List.isEmpty_iff.mp he] at hfl
    exact absurd hfl (List.not_mem_nil f.2)
  have hperm : ((combinedFrame dir).map rowId).Perm
      ((dedupGo [] (loadedFrames dir).flatten).map rowId) :=
    List.Perm.map rowId
      (perm_pySort (fun a b => cellLe (rowId a) (rowId b))
        (dedupGo [] (loadedFrames dir).flatten))
  refine ⟨⟨_, combineEpochs_ok dir h1 h2⟩, ?_, ?_, ?_, ?_, by rfl⟩
  · exact hperm.symm.nodup
      (dedupById_go_nodup [] (loadedFrames dir).flatten).1
  · exact pairwise_pySort _
      (fun a b => cellLe_total (rowId a) (rowId b))
      (fun a b c => cellLe_trans (rowId a) (rowId b) (rowId c)) _
  · intro r hr
    exact hperm.mem_iff.mpr
      (dedupById_go_covers [] (loadedFrames dir).flatten r hr (by simp))
  · intro r hr
    have hmem : r ∈ dedupGo [] (loadedFrames dir).flatten :=
      (mem_pySort _ _ r).mp hr
    exact (dedupById_go_first [] (loadedFrames dir).flatten r hmem).2

/-- Witness for C4 on the A/B directory of the spec's example. -/
theorem combineEpochs_one_row_per_id_sorted_witness :
    (∃ dir', combineEpochs [("a.csv", frameA), ("b.csv", frameB)] =
      .ok (combinedFrame [("a.csv", frameA), ("b.csv", frameB)], dir')) ∧
    ((combinedFrame [("a.csv", frameA), ("b.csv", frameB)]).map rowId).Nodup ∧
    (combinedFrame [("a.csv", frameA), ("b.csv", frameB)]).Pairwise
      (fun a b => cellLe (rowId a) (rowId b) = true) ∧
    (∀ r ∈ (loadedFrames [("a.csv", frameA), ("b.csv", frameB)]).flatten,
      rowId r ∈ (combinedFrame [("a.csv", frameA), ("b.csv", frameB)]).map rowId) ∧
    (∀ r ∈ combinedFrame [("a.csv", frameA), ("b.csv", frameB)],
      ((loadedFrames [("a.csv", frameA), ("b.csv", frameB)]).flatten.filter
        (fun r2 => rowId r2 == rowId r)).head? = some r) ∧
    combineEpochs [("a.csv", frameA), ("b.csv", frameB)] =
      .ok (frameAB,
        [("a.csv", frameA), ("b.csv", frameB), ("combined_epochs.csv", frameAB)]) :=
  combineEpochs_one_row_per_id_sorted [("a.csv", frameA), ("b.csv", frameB)]
    (by decide)

/-- Claim C9: `combine_epochs` selects every `*.csv` entry with no filter
for numeric names and writes its own output `combined_epochs.csv` into
the same directory; hence a second invocation globs the previously
written archive, loads it among its frames (it is non-empty and not
all-NA), and succeeds again. -/
theorem combineEpochs_reads_own_output (dir : Dir) (res : Frame) (dir' : Dir)
    (h : combineEpochs dir = .ok (res, dir')) :
    ("combined_epochs.csv", res) ∈ globCsv dir' ∧
    (validFrame res = true → res ∈ loadedFrames dir') ∧
    (validFrame res = true → ∃ p, combineEpochs dir' = .ok p) := by
  obtain ⟨hres, hdir'⟩ := combineEpochs_ok_inv dir res dir' h
  have hmem : ("combined_epochs.csv", res) ∈ dir' := by
    rw [hdir', ← hres]
    exact mem_saveCsv dir "combined_epochs.csv" res
  have hglob : ("combined_epochs.csv", res) ∈ globCsv dir' :=
    List.mem_filter.mpr ⟨hmem, by
      show csvGlobMatch "combined_epochs.csv" = true
      decide⟩
  refine ⟨hglob, ?_, ?_⟩
  · intro hv
    exact List.mem_filter.mpr ⟨List.mem_map_of_mem Prod.snd hglob, hv⟩
  · intro hv
    have h1 : ¬(globCsv dir').isEmpty = true := fun he => by
      rw [List.isEmpty_iff.mp he] at hglob
      exact absurd hglob (List.not_mem_nil _)
    have hl : res ∈ loadedFrames dir' :=
      List.mem_filter.mpr ⟨List.mem_map_of_mem Prod.snd hglob, hv⟩
    have h2 : ¬(loadedFrames dir').isEmpty = true := fun he => by
      rw [List.isEmpty_iff.mp he] at hl
      exact absurd hl (List.not_mem_nil _)
    exact ⟨_, combineEpochs_ok dir' h1 h2⟩

/-- Witness for C9 on a directory holding a numeric and a non-numeric
CSV name. -/
theorem combineEpochs_reads_own_output_witness :
    ("combined_epochs.csv", ([[some 1], [some 2]] : Frame)) ∈
      globCsv [("foo.csv", [[some 2]]), ("0.csv", [[some 1]]),
        ("combined_epochs.csv", [[some 1], [some 2]])] ∧
    (validFrame [[some 1], [some 2]] = true →
      ([[some 1], [some 2]] : Frame) ∈ loadedFrames
        [("foo.csv", [[some 2]]), ("0.csv", [[some 1]]),
          ("combined_epochs.csv", [[some 1], [some 2]])]) ∧
    (validFrame [[some 1], [some 2]] = true →
      ∃ p, combineEpochs [("foo.csv", [[some 2]]), ("0.csv", [[some 1]]),
        ("combined_epochs.csv", [[some 1], [some 2]])] = .ok p) :=
  combineEpochs_reads_own_output
    [("foo.csv", [[some 2]]), ("0.csv", [[some 1]])]
    [[some 1], [some 2]]
    [("foo.csv", [[some 2]]), ("0.csv", [[some 1]]),
      ("combined_epochs.csv", [[some 1], [some 2]])]
    (by rfl)

end MastodonScraper
